import Mathlib

/-!
Shallow embedding of the single-instance coordination code in
`kitty/utils.py`: the endpoint parser `parse_address_spec`, the
candidate-directory enumeration `unix_socket_paths`, the filesystem lock
coordinator `single_instance_unix`, the abstract-socket coordinator
`SingleInstance.__call__` and the exit-time cleanup `remove_socket_file`.

Strings are modelled as `List Char`.  Operating-system calls are modelled by
an explicit environment record fixing the outcome of each call, and each
modelled function returns, besides its Python return value, the ordered trace
of system calls it performed.  A Python function that may raise is embedded
with `Except` over numeric errno values.
-/

namespace Kitty

/- errno codes used by the embedded code (numeric values as on Linux; only
their distinctness matters for the control flow). -/

def ENOENT : Nat := 2

def EBADF : Nat := 9

def EAGAIN : Nat := 11

def EACCES : Nat := 13

def EEXIST : Nat := 17

def EADDRINUSE : Nat := 98

/-- The NUL character used by Linux abstract-namespace socket addresses
(Python string `'\0'`). -/
def nulChar : Char := Char.ofNat 0

/-- Split a character list at the first occurrence of `c`; `none` when `c`
does not occur. -/
def breakAtFirst (c : Char) : List Char → Option (List Char × List Char)
  | [] => none
  | x :: xs =>
    if x = c then some ([], xs)
    else
      match breakAtFirst c xs with
      | none => none
      | some (a, b) => some (x :: a, b)

/-- Python `s.split(sep, 1)` in the cases where unpacking the result into two
variables succeeds: `some (before, after)` for the first occurrence of the
separator, `none` when the separator does not occur (Python then yields a
one-element list and the two-variable unpacking raises `ValueError`). -/
def lsplit1 (s : List Char) (c : Char) : Option (List Char × List Char) :=
  breakAtFirst c s

/-- Python `s.rsplit(sep, 1)` in the cases where unpacking the result into
two variables succeeds: split at the last occurrence of the separator,
`none` when the separator does not occur. -/
def rsplit1 (s : List Char) (c : Char) : Option (List Char × List Char) :=
  match breakAtFirst c s.reverse with
  | none => none
  | some (a, b) => some (b.reverse, a.reverse)

/-- Python `s.rpartition(sep)[0]`: everything before the last occurrence of
the separator, and the empty string when the separator does not occur. -/
def rpartBefore (s : List Char) (c : Char) : List Char :=
  match breakAtFirst c s.reverse with
  | none => []
  | some (_, b) => b.reverse

/-- Numeric value of a decimal digit string (most significant first). -/
def digitsVal (ds : List Char) : Nat :=
  ds.foldl (fun a c => a * 10 + (c.toNat - 48)) 0

/-- Strip ASCII space characters from both ends. -/
def stripSpaces (s : List Char) : List Char :=
  ((s.dropWhile (fun c => c = ' ')).reverse.dropWhile (fun c => c = ' ')).reverse

/-- Python `int(s)` on the modelled subset: optional surrounding ASCII
spaces, an optional single sign, then one or more ASCII decimal digits;
`none` models `ValueError` (underscore separators and non-ASCII digits are
outside the modelled subset). -/
def pyInt (s : List Char) : Option Int :=
  match stripSpaces s with
  | [] => none
  | c :: rest =>
    if c = '-' then
      if rest ≠ [] ∧ rest.all Char.isDigit then some (-(digitsVal rest : Int)) else none
    else if c = '+' then
      if rest ≠ [] ∧ rest.all Char.isDigit then some ((digitsVal rest : Int)) else none
    else if (c :: rest).all Char.isDigit then some ((digitsVal (c :: rest) : Int)) else none

/-- Socket address families as used by `parse_address_spec`. -/
inductive PyFamily where
  | afUnix
  | afInet
  | afInet6
  deriving DecidableEq, Repr

/-- The address component returned by `parse_address_spec`: a Unix path or
abstract name, or a `(host, port)` pair. -/
inductive PyAddr where
  | unixAddr (a : List Char)
  | inetAddr (host : List Char) (port : Int)
  deriving DecidableEq, Repr

/-- The `ValueError`s `parse_address_spec` can raise, with the data each
actually carries in its message: the two-variable unpacking failures carry
nothing, `int()` carries the offending literal, and the unknown-protocol
error carries the whole spec string. -/
inductive ParseErr where
  | splitUnpack
  | rsplitUnpack
  | intLiteral (lit : List Char)
  | unknownProtocol (spec : List Char)
  deriving DecidableEq, Repr

/-- `parse_address_spec(spec)` from `kitty/utils.py` (lines 357-374):
split the spec at the first `':'` into protocol and rest; for `unix`, a rest
starting with `'@'` of length > 1 denotes the abstract address
`'\0' + rest[1:]` with no cleanup path, any other rest is both the address
and the cleanup path; for `tcp`/`tcp6`, split rest at the last `':'` into
host and port and parse the port as an integer; any other protocol raises. -/
def parse_address_spec (spec : List Char) :
    Except ParseErr (PyFamily × PyAddr × Option (List Char)) :=
  match lsplit1 spec ':' with
  | none => .error .splitUnpack
  | some (protocol, rest) =>
    if protocol = "unix".data then
      if rest.head? = some '@' ∧ 1 < rest.length then
        .ok (.afUnix, .unixAddr (nulChar :: rest.drop 1), none)
      else
        .ok (.afUnix, .unixAddr rest, some rest)
    else if protocol = "tcp".data ∨ protocol = "tcp6".data then
      match rsplit1 rest ':' with
      | none => .error .rsplitUnpack
      | some (host, portStr) =>
        match pyInt portStr with
        | none => .error (.intLiteral portStr)
        | some n =>
          .ok (if protocol = "tcp".data then .afInet else .afInet6, .inetAddr host n, none)
    else .error (.unknownProtocol spec)

/-- Outcomes of operating-system calls, fixed by an explicit environment:
the directory layout and access rights seen by `unix_socket_paths`, and the
result of each fallible call made by `single_instance_unix`.  Calls are
keyed by the path (or, for the lock, the file descriptor) they act on;
`bind1Res` is the outcome of the first bind of the rendezvous socket and
`bind2Res` the outcome of the retry performed after unlinking a stale
socket path. -/
structure FsEnv where
  isMacos : Bool
  tmpdir : List Char
  home : List Char
  userCacheDir : List Char
  access : List Char → Bool
  openRes : List Char → Except Nat Nat
  lockRes : Nat → Except Nat Unit
  connectRes : List Char → Except Nat Unit
  bind1Res : List Char → Except Nat Unit
  unlinkRes : List Char → Except Nat Unit
  bind2Res : List Char → Except Nat Unit

/-- Trace events: one per attempted system call or registration, in program
order. -/
inductive Ev where
  | openLock (path : List Char)
  | lockTry (fd : Nat)
  | bindTo (addr : List Char)
  | connectTo (addr : List Char)
  | unlinkPath (path : List Char)
  | keepGlobal
  | registerCleanup (path : Option (List Char))
  | listenEv
  | setNonInheritable
  deriving DecidableEq, Repr

/-- `os.path.join(a, b)` for POSIX paths on the modelled subset: an absolute
second component replaces the first, otherwise the components are joined
with exactly one separator. -/
def ospath_join (a b : List Char) : List Char :=
  if b.head? = some '/' then b
  else if a = [] then b
  else if a.getLast? = some '/' then a ++ b
  else a ++ "/".data ++ b

/-- `unix_socket_paths(name, ext='.lock')` from `kitty/utils.py` (lines
280-291): on macOS the candidates are the user cache directory then
`/Library/Caches`, elsewhere the system temporary directory then the user's
home; each candidate passing the `os.access(loc, W_OK | R_OK | X_OK)` check
(modelled as the single predicate `access`) yields
`join(loc, ('.' if loc == home else '') + name + ext)`. -/
def unix_socket_paths (env : FsEnv) (name ext : List Char) : List (List Char) :=
  let home := env.home
  let candidates :=
    if env.isMacos then [env.userCacheDir, "/Library/Caches".data]
    else [env.tmpdir, home]
  (candidates.filter (fun loc => env.access loc)).map
    (fun loc => ospath_join loc ((if loc = home then ".".data else []) ++ name ++ ext))

/-- Line 296 of `kitty/utils.py`:
`socket_path = path.rpartition('.')[0] + '.sock'`. -/
def sockPathOf (path : List Char) : List Char :=
  rpartBefore path '.' ++ ".sock".data

/-- One iteration of the `single_instance_unix` loop body (lines 296-321)
for a single candidate lock path: open the lock file, try the non-blocking
exclusive lock; on `EAGAIN`/`EACCES` connect to the socket path and return
`False`; on lock success bind the rendezvous socket, recovering exactly once
from `EADDRINUSE`/`EEXIST` by unlinking the stale path and rebinding; any
other error propagates.  Every control path ends in a return or a raise. -/
def tryPath (env : FsEnv) (path : List Char) : Except Nat Bool × List Ev :=
  let sock := sockPathOf path
  match env.openRes path with
  | .error e => (.error e, [.openLock path])
  | .ok fd =>
    match env.lockRes fd with
    | .error e =>
      if e = EAGAIN ∨ e = EACCES then
        match env.connectRes sock with
        | .error ce => (.error ce, [.openLock path, .lockTry fd, .connectTo sock])
        | .ok _ => (.ok false, [.openLock path, .lockTry fd, .connectTo sock, .keepGlobal])
      else
        (.error e, [.openLock path, .lockTry fd])
    | .ok _ =>
      match env.bind1Res sock with
      | .ok _ =>
        (.ok true, [.openLock path, .lockTry fd, .bindTo sock, .keepGlobal,
          .registerCleanup (some sock), .listenEv, .setNonInheritable])
      | .error e =>
        if e = EADDRINUSE ∨ e = EEXIST then
          match env.unlinkRes sock with
          | .error ue =>
            (.error ue, [.openLock path, .lockTry fd, .bindTo sock, .unlinkPath sock])
          | .ok _ =>
            match env.bind2Res sock with
            | .error e2 =>
              (.error e2, [.openLock path, .lockTry fd, .bindTo sock, .unlinkPath sock,
                .bindTo sock])
            | .ok _ =>
              (.ok true, [.openLock path, .lockTry fd, .bindTo sock, .unlinkPath sock,
                .bindTo sock, .keepGlobal, .registerCleanup (some sock), .listenEv,
                .setNonInheritable])
        else (.error e, [.openLock path, .lockTry fd, .bindTo sock])

/-- The `for path in unix_socket_paths(name)` loop of `single_instance_unix`:
since every control path of the loop body ends in a return or a raise (see
`tryPath`), a second candidate is never reached, and exhausting an empty
enumeration falls off the loop, which in Python returns `None`. -/
def siLoop (env : FsEnv) : List (List Char) → Except Nat (Option Bool) × List Ev
  | [] => (.ok none, [])
  | path :: _rest =>
    ((tryPath env path).1.map some, (tryPath env path).2)

/-- `single_instance_unix(name)` from `kitty/utils.py` (lines 293-321). -/
def single_instance_unix (env : FsEnv) (name : List Char) :
    Except Nat (Option Bool) × List Ev :=
  siLoop env (unix_socket_paths env name ".lock".data)

/-- Environment for `SingleInstance.__call__`: the outcome of binding the
abstract-namespace address, the outcome of connecting to it, and the
filesystem environment used when the call delegates to
`single_instance_unix`. -/
structure CallEnv where
  abstractBindRes : Except Nat Unit
  abstractConnectRes : Except Nat Unit
  fs : FsEnv

/-- The coordination name computed at lines 330-332:
`'{appname}-ipc-{euid}'`, with `-{group_id}` appended when the group id is
truthy (a non-empty string). -/
def siName (appname : List Char) (euid : Nat) (group : Option (List Char)) : List Char :=
  let base := appname ++ "-ipc-".data ++ (Nat.repr euid).data
  match group with
  | some g => if g ≠ [] then base ++ "-".data ++ g else base
  | none => base

/-- `SingleInstance.__call__` from `kitty/utils.py` (lines 328-351): bind a
Unix socket to the abstract address `'\0' + name`; on success listen, retain
the socket, register cleanup (with no filesystem path) and return `True`; on
`ENOENT` delegate to `single_instance_unix(name)` and return its result; on
`EADDRINUSE` connect to the same abstract address, retain the socket and
return `False`; any other bind error propagates. -/
def singleInstanceCall (env : CallEnv) (name : List Char) :
    Except Nat (Option Bool) × List Ev :=
  let addr := nulChar :: name
  match env.abstractBindRes with
  | .ok _ =>
    (.ok (some true), [.bindTo addr, .listenEv, .keepGlobal, .setNonInheritable,
      .registerCleanup none])
  | .error e =>
    if e = ENOENT then
      ((single_instance_unix env.fs name).1,
        .bindTo addr :: (single_instance_unix env.fs name).2)
    else if e = EADDRINUSE then
      match env.abstractConnectRes with
      | .ok _ => (.ok (some false), [.bindTo addr, .connectTo addr, .keepGlobal])
      | .error ce => (.error ce, [.bindTo addr, .connectTo addr])
    else (.error e, [.bindTo addr])

/-- World state acted on by the exit-time cleanup: whether the coordination
socket and the lock file descriptor are open, and the set of filesystem
paths that exist. -/
structure World where
  socketOpen : Bool
  lockFdOpen : Bool
  files : List (List Char)
  deriving DecidableEq, Repr

/-- `s.close()`: closing an already-closed descriptor is modelled as an
`OSError` (the worst case the source's `suppress(OSError)` guards). -/
def pyCloseSocket (w : World) : Except Nat World :=
  if w.socketOpen then .ok { w with socketOpen := false } else .error EBADF

/-- `os.unlink(p)`: remove the path, `ENOENT` when it does not exist. -/
def pyUnlink (w : World) (p : List Char) : Except Nat World :=
  if p ∈ w.files then .ok { w with files := w.files.filter (fun q => q ≠ p) }
  else .error ENOENT

/-- `with suppress(OSError): ...` — on error keep the prior state. -/
def suppressOS (w : World) (r : Except Nat World) : World :=
  match r with
  | .ok w2 => w2
  | .error _ => w

/-- `remove_socket_file(s, path=None)` from `kitty/utils.py` (lines
272-277): close the socket suppressing `OSError`, and when `path` is truthy
(a non-empty string) unlink it, again suppressing `OSError`.  The function
is total — it never raises — because both operations are wrapped in
`suppress(OSError)`. -/
def remove_socket_file (w : World) (path : Option (List Char)) : World :=
  let w1 := suppressOS w (pyCloseSocket w)
  match path with
  | none => w1
  | some p => if p = [] then w1 else suppressOS w1 (pyUnlink w1 p)

/-- The candidate lock-path enumeration exactly as claim C8 words it, for
comparison with `unix_socket_paths`: on macOS the user cache directory then
`/Library/Caches`, elsewhere the temporary directory then the home
directory, keeping only directories passing the access check, with a leading
dot on the filename exactly when the directory is the home directory. -/
def claimedSocketPaths (env : FsEnv) (name ext : List Char) : List (List Char) :=
  ((if env.isMacos then [env.userCacheDir, "/Library/Caches".data]
    else [env.tmpdir, env.home]).filter (fun loc => env.access loc)).map
    (fun loc =>
      ospath_join loc ((if loc = env.home then ".".data else []) ++ name ++ ext))

/- Lemmas about the string helpers. -/

theorem breakAtFirst_append (c : Char) (a b : List Char) (ha : c ∉ a) :
    breakAtFirst c (a ++ c :: b) = some (a, b) := by
  induction a with
  | nil => simp [breakAtFirst]
  | cons x xs ih =>
    rw [List.mem_cons, not_or] at ha
    simp only [List.cons_append, breakAtFirst]
    rw [if_neg (fun h => ha.1 h.symm), List.append_eq, ih ha.2]

theorem lsplit1_append (p r : List Char) (c : Char) (hp : c ∉ p) :
    lsplit1 (p ++ c :: r) c = some (p, r) :=
  breakAtFirst_append c p r hp

theorem rsplit1_append (h d : List Char) (c : Char) (hd : c ∉ d) :
    rsplit1 (h ++ c :: d) c = some (h, d) := by
  unfold rsplit1
  rw [show (h ++ c :: d).reverse = d.reverse ++ c :: h.reverse by simp]
  rw [breakAtFirst_append c _ _ (by simpa using hd)]
  simp

theorem rpartBefore_append (q r : List Char) (c : Char) (hr : c ∉ r) :
    rpartBefore (q ++ c :: r) c = q := by
  unfold rpartBefore
  rw [show (q ++ c :: r).reverse = r.reverse ++ c :: q.reverse by simp]
  rw [breakAtFirst_append c _ _ (by simpa using hr)]
  simp

theorem not_space_of_digit (c : Char) (h : c.isDigit = true) : ¬ c = ' ' := by
  intro hc
  subst hc
  simp [Char.isDigit] at h

theorem dropWhile_space_of_digits (l : List Char) (h : l.all Char.isDigit = true) :
    l.dropWhile (fun c => c = ' ') = l := by
  cases l with
  | nil => rfl
  | cons c rest =>
    have hc : c.isDigit = true := by
      have := List.all_eq_true.mp h
      exact this c (List.mem_cons_self c rest)
    rw [List.dropWhile_cons]
    simp [not_space_of_digit c hc]

theorem stripSpaces_of_digits (l : List Char) (h : l.all Char.isDigit = true) :
    stripSpaces l = l := by
  unfold stripSpaces
  have hrev : l.reverse.all Char.isDigit = true := by
    rw [List.all_eq_true] at h ⊢
    intro c hc
    exact h c (List.mem_reverse.mp hc)
  rw [dropWhile_space_of_digits l h, dropWhile_space_of_digits l.reverse hrev,
    List.reverse_reverse]

theorem pyInt_digits (ds : List Char) (h1 : ds ≠ []) (h2 : ds.all Char.isDigit = true) :
    pyInt ds = some ((digitsVal ds : Nat) : Int) := by
  unfold pyInt
  rw [stripSpaces_of_digits ds h2]
  cases ds with
  | nil => exact absurd rfl h1
  | cons c rest =>
    have hc : c.isDigit = true :=
      List.all_eq_true.mp h2 c (List.mem_cons_self c rest)
    have hminus : ¬ c = '-' := by
      intro hcm; subst hcm; simp [Char.isDigit] at hc
    have hplus : ¬ c = '+' := by
      intro hcp; subst hcp; simp [Char.isDigit] at hc
    simp [hminus, hplus, h2]

theorem not_colon_mem_of_digits (ds : List Char) (h : ds.all Char.isDigit = true) :
    ':' ∉ ds := by
  intro hm
  have := List.all_eq_true.mp h ':' hm
  simp [Char.isDigit] at this

theorem breakAtFirst_eq_none (c : Char) (s : List Char) (h : c ∉ s) :
    breakAtFirst c s = none := by
  induction s with
  | nil => rfl
  | cons x xs ih =>
    rw [List.mem_cons, not_or] at h
    simp only [breakAtFirst]
    rw [if_neg (fun hx => h.1 hx.symm), ih h.2]

theorem rsplit1_eq_none (s : List Char) (c : Char) (h : c ∉ s) :
    rsplit1 s c = none := by
  unfold rsplit1
  rw [breakAtFirst_eq_none c s.reverse (by simpa using h)]

/-- Claim C3: for every well-formed endpoint specification, the parser
recovers exactly the structured fields encoded in it.  Protocol `unix` with a
rest starting with `'@'` of length > 1 yields the abstract-namespace address
`'\0' + rest[1:]` and no cleanup path; any other `unix` rest yields that rest
as both the bind address and the cleanup path; `tcp`/`tcp6` yield the host
and the integer port obtained by splitting the rest at its last colon (the
host may itself contain colons, so IPv6 literals are supported). -/
theorem parse_address_spec_roundtrip :
    (∀ rest : List Char, rest.head? = some '@' → 1 < rest.length →
      parse_address_spec ("unix:".data ++ rest) =
        .ok (.afUnix, .unixAddr (nulChar :: rest.drop 1), none)) ∧
    (∀ rest : List Char, ¬(rest.head? = some '@' ∧ 1 < rest.length) →
      parse_address_spec ("unix:".data ++ rest) =
        .ok (.afUnix, .unixAddr rest, some rest)) ∧
    (∀ host ds : List Char, ds ≠ [] → ds.all Char.isDigit = true →
      parse_address_spec ("tcp:".data ++ host ++ ":".data ++ ds) =
        .ok (.afInet, .inetAddr host ((digitsVal ds : Nat) : Int), none)) ∧
    (∀ host ds : List Char, ds ≠ [] → ds.all Char.isDigit = true →
      parse_address_spec ("tcp6:".data ++ host ++ ":".data ++ ds) =
        .ok (.afInet6, .inetAddr host ((digitsVal ds : Nat) : Int), none)) := by
  refine ⟨?_, ?_, ?_, ?_⟩
  · intro rest h1 h2
    rw [show "unix:".data ++ rest = "unix".data ++ ':' :: rest from rfl]
    unfold parse_address_spec
    rw [lsplit1_append "unix".data rest ':' (by decide)]
    simp [h1, h2]
  · intro rest h
    rw [show "unix:".data ++ rest = "unix".data ++ ':' :: rest from rfl]
    unfold parse_address_spec
    rw [lsplit1_append "unix".data rest ':' (by decide)]
    simp [h]
  · intro host ds h1 h2
    have hs : "tcp:".data ++ host ++ ":".data ++ ds =
        "tcp".data ++ ':' :: (host ++ ':' :: ds) := by
      rw [List.append_assoc, List.append_assoc]; rfl
    rw [hs]
    unfold parse_address_spec
    rw [lsplit1_append "tcp".data _ ':' (by decide)]
    have hcolon : ':' ∉ ds := not_colon_mem_of_digits ds h2
    have hne : ¬("tcp".data = "unix".data) := by decide
    simp [hne, rsplit1_append host ds ':' hcolon, pyInt_digits ds h1 h2]
  · intro host ds h1 h2
    have hs : "tcp6:".data ++ host ++ ":".data ++ ds =
        "tcp6".data ++ ':' :: (host ++ ':' :: ds) := by
      rw [List.append_assoc, List.append_assoc]; rfl
    rw [hs]
    unfold parse_address_spec
    rw [lsplit1_append "tcp6".data _ ':' (by decide)]
    have hcolon : ':' ∉ ds := not_colon_mem_of_digits ds h2
    have hne : ¬("tcp6".data = "unix".data) := by decide
    have hne2 : ¬("tcp6".data = "tcp".data) := by decide
    simp [hne, hne2, rsplit1_append host ds ':' hcolon, pyInt_digits ds h1 h2]

/-- Witness for C3: a concrete IPv6 spec with embedded colons in the host
parses to its structured fields. -/
theorem parse_address_spec_roundtrip_w :
    parse_address_spec ("tcp6:".data ++ "::1".data ++ ":".data ++ "8080".data) =
      .ok (.afInet6, .inetAddr "::1".data ((digitsVal "8080".data : Nat) : Int), none) :=
  parse_address_spec_roundtrip.2.2.2 "::1".data "8080".data (by decide) (by decide)

/-- Claim C4 counterexample: on the malformed spec `"tcp:1234"` (no
host/port separator in the rest) the parser raises the bare two-variable
unpacking `ValueError`, which carries no reference to the offending spec
string — contradicting the claim that every such failure carries the
offending string.  (In CPython the raised error is
`ValueError("not enough values to unpack (expected 2, got 1)")`.) -/
theorem parse_address_spec_missing_sep_cex :
    parse_address_spec "tcp:1234".data = .error .rsplitUnpack := by rfl

/-- Claim C4 (amended): for every spec with an unknown protocol or a
malformed rest, the parser fails deterministically with a `ValueError` and —
being a pure function — performs no side effects; but the error carries the
offending spec string only in the unknown-protocol case: the
missing-separator case carries nothing and the non-numeric-port case carries
only the offending port literal. -/
theorem parse_address_spec_failure_modes :
    (∀ spec protocol rest : List Char, lsplit1 spec ':' = some (protocol, rest) →
      protocol ≠ "unix".data → protocol ≠ "tcp".data → protocol ≠ "tcp6".data →
      parse_address_spec spec = .error (.unknownProtocol spec)) ∧
    (∀ protocol rest : List Char,
      (protocol = "tcp".data ∨ protocol = "tcp6".data) → ':' ∉ rest →
      parse_address_spec (protocol ++ ':' :: rest) = .error .rsplitUnpack) ∧
    (∀ protocol host ds : List Char,
      (protocol = "tcp".data ∨ protocol = "tcp6".data) → ':' ∉ ds → pyInt ds = none →
      parse_address_spec (protocol ++ ':' :: (host ++ ':' :: ds)) =
        .error (.intLiteral ds)) := by
  refine ⟨?_, ?_, ?_⟩
  · intro spec protocol rest hsplit h1 h2 h3
    unfold parse_address_spec
    rw [hsplit]
    simp [h1, h2, h3]
  · intro protocol rest hp hrest
    rcases hp with rfl | rfl
    · unfold parse_address_spec
      rw [lsplit1_append "tcp".data rest ':' (by decide)]
      have hne : ¬("tcp".data = "unix".data) := by decide
      simp [hne, rsplit1_eq_none rest ':' hrest]
    · unfold parse_address_spec
      rw [lsplit1_append "tcp6".data rest ':' (by decide)]
      have hne : ¬("tcp6".data = "unix".data) := by decide
      simp [hne, rsplit1_eq_none rest ':' hrest]
  · intro protocol host ds hp hds hpy
    rcases hp with rfl | rfl
    · unfold parse_address_spec
      rw [lsplit1_append "tcp".data _ ':' (by decide)]
      have hne : ¬("tcp".data = "unix".data) := by decide
      simp [hne, rsplit1_append host ds ':' hds, hpy]
    · unfold parse_address_spec
      rw [lsplit1_append "tcp6".data _ ':' (by decide)]
      have hne : ¬("tcp6".data = "unix".data) := by decide
      simp [hne, rsplit1_append host ds ':' hds, hpy]

/-- Witness for the amended C4: the three concrete malformed specs from the
specification fail with exactly the modelled errors. -/
theorem parse_address_spec_failure_modes_w :
    parse_address_spec "foo:bar".data = .error (.unknownProtocol "foo:bar".data) ∧
    parse_address_spec ("tcp".data ++ ':' :: "9".data) = .error .rsplitUnpack ∧
    parse_address_spec ("tcp".data ++ ':' :: ("host".data ++ ':' :: "notanumber".data)) =
      .error (.intLiteral "notanumber".data) :=
  ⟨parse_address_spec_failure_modes.1 "foo:bar".data "foo".data "bar".data (by rfl)
      (by decide) (by decide) (by decide),
   parse_address_spec_failure_modes.2.1 "tcp".data "9".data (Or.inl rfl) (by decide),
   parse_address_spec_failure_modes.2.2 "tcp".data "host".data "notanumber".data
      (Or.inl rfl) (by decide) (by rfl)⟩

theorem sockPathOf_lock (q : List Char) :
    sockPathOf (q ++ ".lock".data) = q ++ ".sock".data := by
  unfold sockPathOf
  rw [show q ++ ".lock".data = q ++ '.' :: "lock".data from rfl]
  rw [rpartBefore_append q "lock".data '.' (by decide)]

theorem lock_ne_sock (q : List Char) : q ++ ".lock".data ≠ q ++ ".sock".data := by
  intro h
  have h2 : ".lock".data = ".sock".data := by
    have := List.append_cancel_left h
    exact this
  exact absurd h2 (by decide)

theorem append_lock_ne_nil (q : List Char) (s : List Char) (hs : s ≠ []) :
    q ++ s ≠ [] := by
  intro h
  exact absurd (List.append_eq_nil.mp h).2 hs

/- Concrete environments used by witnesses and counterexamples. -/

def EPERM : Nat := 1

def fsEnvBase : FsEnv :=
  { isMacos := false
    tmpdir := "/tmp".data
    home := "/home/u".data
    userCacheDir := "/uc".data
    access := fun _ => true
    openRes := fun _ => .ok 7
    lockRes := fun _ => .ok ()
    connectRes := fun _ => .ok ()
    bind1Res := fun _ => .ok ()
    unlinkRes := fun _ => .ok ()
    bind2Res := fun _ => .ok () }

def envNoCandidates : FsEnv := { fsEnvBase with access := fun _ => false }

def envOpenFail : FsEnv := { fsEnvBase with openRes := fun _ => .error EACCES }

def envOpenFailPerm : FsEnv := { fsEnvBase with openRes := fun _ => .error EPERM }

def envLockDenied : FsEnv := { fsEnvBase with lockRes := fun _ => .error EAGAIN }

def envLockBroken : FsEnv := { fsEnvBase with lockRes := fun _ => .error EPERM }

def envStaleSock : FsEnv := { fsEnvBase with bind1Res := fun _ => .error EADDRINUSE }

def envStaleSockRebindFail : FsEnv :=
  { fsEnvBase with
    bind1Res := fun _ => .error EADDRINUSE
    bind2Res := fun _ => .error EACCES }

def wC9 : World :=
  { socketOpen := true
    lockFdOpen := true
    files := ["/tmp/x.sock".data] }

def wC10 : World :=
  { socketOpen := true
    lockFdOpen := true
    files := ["/tmp/app.lock".data, "/tmp/app.sock".data] }

def cenvInUse : CallEnv :=
  { abstractBindRes := .error EADDRINUSE
    abstractConnectRes := .ok ()
    fs := fsEnvBase }

def cenvFatal : CallEnv :=
  { abstractBindRes := .error EPERM
    abstractConnectRes := .ok ()
    fs := fsEnvBase }

/-- Claim C2: when the abstract-namespace bind of `SingleInstance.__call__`
fails, the outcome is decided exactly by the error kind: `EADDRINUSE`
connects a client socket to the same abstract address and returns `False`;
`ENOENT` delegates to `single_instance_unix` and returns its result
unchanged (the trace gains only the failed bind attempt); every other bind
error propagates to the caller. -/
theorem singleInstanceCall_dispatch :
    ∀ (env : CallEnv) (name : List Char),
      (env.abstractBindRes = .error EADDRINUSE → env.abstractConnectRes = .ok () →
        singleInstanceCall env name =
          (.ok (some false),
            [.bindTo (nulChar :: name), .connectTo (nulChar :: name), .keepGlobal])) ∧
      (env.abstractBindRes = .error ENOENT →
        (singleInstanceCall env name).1 = (single_instance_unix env.fs name).1 ∧
        (singleInstanceCall env name).2 =
          .bindTo (nulChar :: name) :: (single_instance_unix env.fs name).2) ∧
      (∀ e : Nat, env.abstractBindRes = .error e → e ≠ ENOENT → e ≠ EADDRINUSE →
        singleInstanceCall env name = (.error e, [.bindTo (nulChar :: name)])) := by
  intro env name
  refine ⟨?_, ?_, ?_⟩
  · intro hb hc
    have h1 : ¬(EADDRINUSE = ENOENT) := by decide
    simp [singleInstanceCall, hb, hc, h1]
  · intro hb
    simp [singleInstanceCall, hb]
  · intro e hb h2 h3
    simp [singleInstanceCall, hb, h2, h3]

/-- Witness for C2: the two failing-bind dispatch branches at concrete
environments. -/
theorem singleInstanceCall_dispatch_w :
    singleInstanceCall cenvInUse "app".data =
      (.ok (some false),
        [.bindTo (nulChar :: "app".data), .connectTo (nulChar :: "app".data),
         .keepGlobal]) ∧
    singleInstanceCall cenvFatal "app".data =
      (.error EPERM, [.bindTo (nulChar :: "app".data)]) :=
  ⟨(singleInstanceCall_dispatch cenvInUse "app".data).1 rfl rfl,
   (singleInstanceCall_dispatch cenvFatal "app".data).2.2 EPERM rfl (by decide) (by decide)⟩

/-- Claim C5 counterexample: with both candidate directories accessible but
a permission failure (`EACCES`) when opening the first lock file,
`single_instance_unix` propagates the error without ever touching the
second candidate — the failure is not "recovered locally by advancing to the
next candidate directory"; and with no accessible candidate at all the
function falls off its loop and returns Python `None` — a silent non-answer
rather than a fatal startup failure. -/
theorem single_instance_unix_no_advance_cex :
    unix_socket_paths envOpenFail "app".data ".lock".data =
      ["/tmp/app.lock".data, "/home/u/.app.lock".data] ∧
    single_instance_unix envOpenFail "app".data =
      (.error EACCES, [.openLock "/tmp/app.lock".data]) ∧
    single_instance_unix envNoCandidates "app".data = (.ok none, []) :=
  ⟨rfl, rfl, rfl⟩

/-- Claim C5 (amended): a candidate directory failing the access check is
silently skipped by the enumerator, but a permission or path failure while
trying a yielded candidate is not recovered: the error propagates to the
caller immediately and no further candidate is tried; and when no candidate
directory passes the access check the function returns `None` rather than
raising a fatal error. -/
theorem single_instance_unix_failure_propagation :
    ∀ (env : FsEnv) (name path : List Char) (rest : List (List Char)) (e : Nat),
      (unix_socket_paths env name ".lock".data = [] →
        single_instance_unix env name = (.ok none, [])) ∧
      (unix_socket_paths env name ".lock".data = path :: rest →
        env.openRes path = .error e →
        single_instance_unix env name = (.error e, [.openLock path])) := by
  intro env name path rest e
  constructor
  · intro h
    unfold single_instance_unix
    rw [h]
    rfl
  · intro h hopen
    unfold single_instance_unix
    rw [h]
    simp [siLoop, tryPath, hopen, Except.map]

/-- Witness for the amended C5: the empty enumeration returns `None`, and an
`EPERM` open failure on the first of two candidates propagates. -/
theorem single_instance_unix_failure_propagation_w :
    single_instance_unix envNoCandidates "app".data = (.ok none, []) ∧
    single_instance_unix envOpenFailPerm "app".data =
      (.error EPERM, [.openLock "/tmp/app.lock".data]) :=
  ⟨(single_instance_unix_failure_propagation envNoCandidates "app".data [] [] 0).1 rfl,
   (single_instance_unix_failure_propagation envOpenFailPerm "app".data
      "/tmp/app.lock".data ["/home/u/.app.lock".data] EPERM).2 rfl rfl⟩

/-- Claim C6: with the advisory lock obtained, a first bind of the
rendezvous socket failing because the path already exists
(`EADDRINUSE`/`EEXIST`, a stale socket) is recovered by unlinking the path
and retrying the bind exactly once — the trace shows exactly two bind
attempts with the unlink between them; a successful retry completes the
acquisition as Primary (return `True`) over the replaced path, while a
failure of the second bind propagates as a fatal error. -/
theorem single_instance_unix_stale_socket_recovery :
    ∀ (env : FsEnv) (name path : List Char) (rest : List (List Char)) (fd e : Nat),
      unix_socket_paths env name ".lock".data = path :: rest →
      env.openRes path = .ok fd →
      env.lockRes fd = .ok () →
      env.bind1Res (sockPathOf path) = .error e →
      (e = EADDRINUSE ∨ e = EEXIST) →
      ((env.unlinkRes (sockPathOf path) = .ok () →
        env.bind2Res (sockPathOf path) = .ok () →
        single_instance_unix env name =
          (.ok (some true),
            [.openLock path, .lockTry fd, .bindTo (sockPathOf path),
             .unlinkPath (sockPathOf path), .bindTo (sockPathOf path), .keepGlobal,
             .registerCleanup (some (sockPathOf path)), .listenEv,
             .setNonInheritable])) ∧
       (∀ e2 : Nat, env.unlinkRes (sockPathOf path) = .ok () →
        env.bind2Res (sockPathOf path) = .error e2 →
        single_instance_unix env name =
          (.error e2,
            [.openLock path, .lockTry fd, .bindTo (sockPathOf path),
             .unlinkPath (sockPathOf path), .bindTo (sockPathOf path)]))) := by
  intro env name path rest fd e h hopen hlock hbind hstale
  constructor
  · intro hunlink hbind2
    unfold single_instance_unix
    rw [h]
    rcases hstale with rfl | rfl <;>
      simp [siLoop, tryPath, hopen, hlock, hbind, hunlink, hbind2, Except.map]
  · intro e2 hunlink hbind2
    unfold single_instance_unix
    rw [h]
    rcases hstale with rfl | rfl <;>
      simp [siLoop, tryPath, hopen, hlock, hbind, hunlink, hbind2, Except.map]

/-- Witness for C6: a concrete environment with a stale socket path; the
acquisition unlinks it, rebinds and returns Primary. -/
theorem single_instance_unix_stale_socket_recovery_w :
    single_instance_unix envStaleSock "app".data =
      (.ok (some true),
        [.openLock "/tmp/app.lock".data, .lockTry 7, .bindTo "/tmp/app.sock".data,
         .unlinkPath "/tmp/app.sock".data, .bindTo "/tmp/app.sock".data, .keepGlobal,
         .registerCleanup (some "/tmp/app.sock".data), .listenEv,
         .setNonInheritable]) :=
  (single_instance_unix_stale_socket_recovery envStaleSock "app".data
      "/tmp/app.lock".data ["/home/u/.app.lock".data] 7 EADDRINUSE rfl rfl rfl rfl
      (Or.inl rfl)).1 rfl rfl

/-- Claim C7: a non-blocking lock denial with `EAGAIN` or `EACCES` makes the
process a Secondary: it connects a client socket to the socket path of the
same (first) candidate directory and returns `False`, with a trace touching
no further candidate; any other lock failure propagates to the caller. -/
theorem single_instance_unix_lock_denied_secondary :
    ∀ (env : FsEnv) (name path : List Char) (rest : List (List Char)) (fd e : Nat),
      unix_socket_paths env name ".lock".data = path :: rest →
      env.openRes path = .ok fd →
      env.lockRes fd = .error e →
      (((e = EAGAIN ∨ e = EACCES) → env.connectRes (sockPathOf path) = .ok () →
        single_instance_unix env name =
          (.ok (some false),
            [.openLock path, .lockTry fd, .connectTo (sockPathOf path),
             .keepGlobal])) ∧
       (e ≠ EAGAIN → e ≠ EACCES →
        single_instance_unix env name =
          (.error e, [.openLock path, .lockTry fd]))) := by
  intro env name path rest fd e h hopen hlock
  constructor
  · intro hden hconn
    unfold single_instance_unix
    rw [h]
    rcases hden with rfl | rfl <;>
      simp [siLoop, tryPath, hopen, hlock, hconn, Except.map]
  · intro h1 h2
    unfold single_instance_unix
    rw [h]
    simp [siLoop, tryPath, hopen, hlock, h1, h2, Except.map]

/-- Witness for C7: a concrete environment with two accessible candidates
whose first lock is held elsewhere (`EAGAIN`); the call returns Secondary
after connecting to the first candidate's socket path, and a ruined lock
file (`EPERM`) propagates instead. -/
theorem single_instance_unix_lock_denied_secondary_w :
    single_instance_unix envLockDenied "app".data =
      (.ok (some false),
        [.openLock "/tmp/app.lock".data, .lockTry 7, .connectTo "/tmp/app.sock".data,
         .keepGlobal]) ∧
    single_instance_unix envLockBroken "app".data =
      (.error EPERM, [.openLock "/tmp/app.lock".data, .lockTry 7]) :=
  ⟨(single_instance_unix_lock_denied_secondary envLockDenied "app".data
      "/tmp/app.lock".data ["/home/u/.app.lock".data] 7 EAGAIN rfl rfl rfl).1
      (Or.inl rfl) rfl,
   (single_instance_unix_lock_denied_secondary envLockBroken "app".data
      "/tmp/app.lock".data ["/home/u/.app.lock".data] 7 EPERM rfl rfl rfl).2
      (by decide) (by decide)⟩

theorem ospath_join_suffix (a A s : List Char) :
    ∃ q, ospath_join a (A ++ s) = q ++ s := by
  unfold ospath_join
  split
  · exact ⟨A, rfl⟩
  · split
    · exact ⟨A, rfl⟩
    · split
      · exact ⟨a ++ A, (List.append_assoc a A s).symm⟩
      · exact ⟨a ++ "/".data ++ A, (List.append_assoc (a ++ "/".data) A s).symm⟩

/-- Claim C8: the candidate enumeration yields, in order, exactly the
directories the specification lists — on macOS the user cache directory then
`/Library/Caches`, elsewhere the temporary directory then the home directory
— restricted to those passing the access check, with a leading dot exactly
when the directory is the home directory (`claimedSocketPaths` transcribes
the claim's wording); and every yielded lock path ends in `.lock`, with the
socket path of line 296 obtained from it by substituting the `.sock`
suffix. -/
theorem unix_socket_paths_enumeration :
    ∀ (env : FsEnv) (name : List Char),
      unix_socket_paths env name ".lock".data =
          claimedSocketPaths env name ".lock".data ∧
      (∀ p ∈ unix_socket_paths env name ".lock".data,
        p.drop (p.length - 5) = ".lock".data ∧
        sockPathOf p = p.take (p.length - 5) ++ ".sock".data) := by
  intro env name
  refine ⟨rfl, ?_⟩
  intro p hp
  simp only [unix_socket_paths, List.mem_map] at hp
  obtain ⟨loc, hloc, hpeq⟩ := hp
  obtain ⟨q, hq⟩ :=
    ospath_join_suffix loc ((if loc = env.home then ".".data else []) ++ name)
      ".lock".data
  have hpq : p = q ++ ".lock".data := by rw [← hpeq, hq]
  have hlen : p.length - 5 = q.length := by
    rw [hpq, List.length_append]
    rfl
  refine ⟨?_, ?_⟩
  · rw [hlen, hpq, List.drop_left]
  · rw [hlen, hpq, sockPathOf_lock, List.take_left]

/-- Witness for C8: the enumeration and suffix substitution at a concrete
environment; the home-directory candidate carries the leading dot. -/
theorem unix_socket_paths_enumeration_w :
    unix_socket_paths fsEnvBase "app".data ".lock".data =
        claimedSocketPaths fsEnvBase "app".data ".lock".data ∧
    ("/home/u/.app.lock".data.drop ("/home/u/.app.lock".data.length - 5) =
        ".lock".data ∧
      sockPathOf "/home/u/.app.lock".data =
        "/home/u/.app.lock".data.take ("/home/u/.app.lock".data.length - 5) ++
          ".sock".data) :=
  ⟨(unix_socket_paths_enumeration fsEnvBase "app".data).1,
   (unix_socket_paths_enumeration fsEnvBase "app".data).2 "/home/u/.app.lock".data
      (by decide)⟩

theorem closeStep (w : World) :
    suppressOS w (pyCloseSocket w) = { w with socketOpen := false } := by
  obtain ⟨so, lf, fs⟩ := w
  cases so <;> rfl

theorem unlinkStep (w : World) (p : List Char) :
    suppressOS w (pyUnlink w p) =
      { w with files :=
          if p ∈ w.files then w.files.filter (fun r => r ≠ p) else w.files } := by
  by_cases h : p ∈ w.files
  · simp [pyUnlink, suppressOS, h]
  · simp [pyUnlink, suppressOS, h]

theorem remove_some_eq (w : World) (p : List Char) (hp : ¬ p = []) :
    remove_socket_file w (some p) =
      { w with
        socketOpen := false
        files := if p ∈ w.files then w.files.filter (fun r => r ≠ p) else w.files } := by
  simp only [remove_socket_file]
  rw [closeStep w, if_neg hp, unlinkStep]

theorem remove_none_eq (w : World) :
    remove_socket_file w none = { w with socketOpen := false } := by
  simp only [remove_socket_file]
  rw [closeStep w]

theorem remove_lockFd (w : World) (path : Option (List Char)) :
    (remove_socket_file w path).lockFdOpen = w.lockFdOpen := by
  cases path with
  | none => rw [remove_none_eq]
  | some p =>
    by_cases hp : p = []
    · subst hp
      simp only [remove_socket_file]
      rw [closeStep w]
      rfl
    · rw [remove_some_eq w p hp]

/-- Claim C9: the exit-time cleanup never raises (it is a total function of
the world because both operations sit under `suppress(OSError)`): it closes
the socket, removes the recorded cleanup path, is idempotent, and is a
no-op on the file system when the path was already externally removed. -/
theorem remove_socket_file_cleanup :
    ∀ (w : World) (p : List Char), p ≠ [] →
      remove_socket_file (remove_socket_file w (some p)) (some p) =
          remove_socket_file w (some p) ∧
      (remove_socket_file w (some p)).socketOpen = false ∧
      p ∉ (remove_socket_file w (some p)).files ∧
      (p ∉ w.files → remove_socket_file w (some p) = { w with socketOpen := false }) ∧
      remove_socket_file w none = { w with socketOpen := false } := by
  intro w p hp
  obtain ⟨so, lf, fs⟩ := w
  have h1 := remove_some_eq ⟨so, lf, fs⟩ p hp
  have hFnotin : p ∉ (if p ∈ fs then fs.filter (fun r => r ≠ p) else fs) := by
    by_cases h : p ∈ fs
    · simp [h, List.mem_filter]
    · simp [h]
  refine ⟨?_, ?_, ?_, ?_, remove_none_eq _⟩
  · rw [h1, remove_some_eq _ p hp]
    simp [hFnotin]
    intro hmem
    exact absurd hmem (by simpa using hFnotin)
  · rw [h1]
  · rw [h1]
    exact hFnotin
  · intro h
    rw [h1, if_neg h]

/-- Witness for C9: cleanup on a concrete world holding the socket path is
idempotent, closes the socket and removes the path. -/
theorem remove_socket_file_cleanup_w :
    remove_socket_file (remove_socket_file wC9 (some "/tmp/x.sock".data))
        (some "/tmp/x.sock".data) =
      remove_socket_file wC9 (some "/tmp/x.sock".data) ∧
    (remove_socket_file wC9 (some "/tmp/x.sock".data)).socketOpen = false ∧
    "/tmp/x.sock".data ∉ (remove_socket_file wC9 (some "/tmp/x.sock".data)).files :=
  ⟨(remove_socket_file_cleanup wC9 "/tmp/x.sock".data (by decide)).1,
   (remove_socket_file_cleanup wC9 "/tmp/x.sock".data (by decide)).2.1,
   (remove_socket_file_cleanup wC9 "/tmp/x.sock".data (by decide)).2.2.1⟩

theorem tryPath_register (env : FsEnv) (path : List Char)
    (h : (tryPath env path).1 = .ok true) :
    Ev.registerCleanup (some (sockPathOf path)) ∈ (tryPath env path).2 ∧
      ∀ op, Ev.registerCleanup op ∈ (tryPath env path).2 →
        op = some (sockPathOf path) := by
  rcases ho : env.openRes path with e | fd
  · simp [tryPath, ho] at h
  · rcases hl : env.lockRes fd with e | u
    · by_cases hd : e = EAGAIN ∨ e = EACCES
      · rcases hc : env.connectRes (sockPathOf path) with ce | cu
        · simp [tryPath, ho, hl, hd, hc] at h
        · simp [tryPath, ho, hl, hd, hc] at h
      · simp [tryPath, ho, hl, hd] at h
    · rcases hb : env.bind1Res (sockPathOf path) with e | u
      · by_cases hst : e = EADDRINUSE ∨ e = EEXIST
        · rcases hu : env.unlinkRes (sockPathOf path) with ue | uu
          · simp [tryPath, ho, hl, hb, hst, hu] at h
          · rcases h2 : env.bind2Res (sockPathOf path) with e2 | u2
            · simp [tryPath, ho, hl, hb, hst, hu, h2] at h
            · constructor
              · simp [tryPath, ho, hl, hb, hst, hu, h2]
              · intro op hop
                simp [tryPath, ho, hl, hb, hst, hu, h2] at hop
                exact hop
        · simp [tryPath, ho, hl, hb, hst] at h
      · constructor
        · simp [tryPath, ho, hl, hb]
        · intro op hop
          simp [tryPath, ho, hl, hb] at hop
          exact hop

/-- Claim C10: when the filesystem coordinator returns Primary, the cleanup
it registers carries exactly the `.sock` socket path (never the `.lock`
path, and no `closeFd` of the lock descriptor appears anywhere in the
code); running that cleanup on any world leaves the lock-file descriptor
state untouched, keeps the `.lock` file on disk, and removes the `.sock`
path. -/
theorem fs_primary_cleanup_frame :
    ∀ (env : FsEnv) (name q : List Char) (rest : List (List Char)) (w : World),
      unix_socket_paths env name ".lock".data = (q ++ ".lock".data) :: rest →
      (single_instance_unix env name).1 = .ok (some true) →
      ((∀ op, Ev.registerCleanup op ∈ (single_instance_unix env name).2 →
          op = some (q ++ ".sock".data)) ∧
       Ev.registerCleanup (some (q ++ ".sock".data)) ∈
          (single_instance_unix env name).2 ∧
       (remove_socket_file w (some (q ++ ".sock".data))).lockFdOpen = w.lockFdOpen ∧
       ((q ++ ".lock".data) ∈ w.files →
         (q ++ ".lock".data) ∈ (remove_socket_file w (some (q ++ ".sock".data))).files) ∧
       (q ++ ".sock".data) ∉ (remove_socket_file w (some (q ++ ".sock".data))).files) := by
  intro env name q rest w h hres
  have hpne : ¬ (q ++ ".sock".data : List Char) = [] :=
    append_lock_ne_nil q ".sock".data (by decide)
  have h1 := remove_some_eq w (q ++ ".sock".data) hpne
  have htrace : (single_instance_unix env name).2 = (tryPath env (q ++ ".lock".data)).2 := by
    unfold single_instance_unix
    rw [h]
    rfl
  have htry : (tryPath env (q ++ ".lock".data)).1 = .ok true := by
    unfold single_instance_unix at hres
    rw [h] at hres
    rcases ht : (tryPath env (q ++ ".lock".data)).1 with e | b
    · rw [show siLoop env ((q ++ ".lock".data) :: rest) =
          ((tryPath env (q ++ ".lock".data)).1.map some,
            (tryPath env (q ++ ".lock".data)).2) from rfl, ht] at hres
      simp [Except.map] at hres
    · rw [show siLoop env ((q ++ ".lock".data) :: rest) =
          ((tryPath env (q ++ ".lock".data)).1.map some,
            (tryPath env (q ++ ".lock".data)).2) from rfl, ht] at hres
      simp [Except.map] at hres
      rw [hres]
  have hreg := tryPath_register env (q ++ ".lock".data) htry
  rw [sockPathOf_lock q] at hreg
  refine ⟨?_, ?_, remove_lockFd w _, ?_, ?_⟩
  · intro op hop
    rw [htrace] at hop
    exact hreg.2 op hop
  · rw [htrace]
    exact hreg.1
  · intro hlock
    rw [h1]
    by_cases hmem : (q ++ ".sock".data) ∈ w.files
    · simp [hmem, List.mem_filter]
      exact hlock
    · simp [hmem]
      exact hlock
  · rw [h1]
    by_cases hmem : (q ++ ".sock".data) ∈ w.files
    · simp [hmem, List.mem_filter]
    · simp [hmem]

/-- Witness for C10: at a concrete environment whose acquisition succeeds as
Primary, the registered cleanup path is the `.sock` path, and running the
cleanup on a concrete world holding both artifacts keeps the lock-file
descriptor open and the `.lock` file present while removing the `.sock`
path. -/
theorem fs_primary_cleanup_frame_w :
    Ev.registerCleanup (some "/tmp/app.sock".data) ∈
        (single_instance_unix fsEnvBase "app".data).2 ∧
    (remove_socket_file wC10 (some "/tmp/app.sock".data)).lockFdOpen =
        wC10.lockFdOpen ∧
    "/tmp/app.lock".data ∈
        (remove_socket_file wC10 (some "/tmp/app.sock".data)).files ∧
    "/tmp/app.sock".data ∉
        (remove_socket_file wC10 (some "/tmp/app.sock".data)).files := by
  have h := fs_primary_cleanup_frame fsEnvBase "app".data "/tmp/app".data
    ["/home/u/.app.lock".data] wC10 (by decide) (by rfl)
  exact ⟨h.2.1, h.2.2.1, h.2.2.2.1 (by decide), h.2.2.2.2⟩

end Kitty
